import Mathlib

/-! A verification development for the time-series source parsers of the
sunpy repository: `sunpy/timeseries/sources/eve.py` (EVE averages and
level-0CS text formats) and `sunpy/timeseries/sources/norh.py` (NoRH FITS
correlation files).

The Python code is shallowly embedded: byte strings become `List Char`,
Python exceptions become an explicit error type threaded through `Except`,
`OrderedDict` becomes an association list with in-place update semantics,
and Python floats become exact fractions (`PyFloat`, an integer numerator
and denominator compared by cross multiplication, matching numeric `==` on
the decimal literals these files contain). -/

/-- A decoded byte string (one line of a file, newline included). -/
abbrev Line := List Char

/-- Python exceptions raised by the embedded code.  `typeError` is the
error the pandas `Index` constructor raises on a scalar `columns`
argument; `parserError` is the csv reader's error for a malformed row. -/
inductive PyErr where
  | zeroDivisionError
  | valueError
  | indexError
  | typeError
  | parserError
deriving DecidableEq

/-- The astropy unit objects the two sources attach to columns. -/
inductive UnitTag where
  | dimensionless
  | wattPerM2
  | count
deriving DecidableEq

/-- A Python float produced by parsing a decimal literal: an exact fraction,
kept unreduced.  Numeric comparison is `pfEq` (cross multiplication). -/
structure PyFloat where
  num : ℤ
  den : ℤ
deriving DecidableEq

/-- Numeric equality of two embedded floats, as Python's `==`. -/
def pfEq (a b : PyFloat) : Bool := a.num * b.den == b.num * a.den

def pfOfInt (n : ℤ) : PyFloat := ⟨n, 1⟩

def pfAdd (a b : PyFloat) : PyFloat := ⟨a.num * b.den + b.num * a.den, a.den * b.den⟩

def pfSub (a b : PyFloat) : PyFloat := ⟨a.num * b.den - b.num * a.den, a.den * b.den⟩

def pfMul (a b : PyFloat) : PyFloat := ⟨a.num * b.num, a.den * b.den⟩

def pfDiv (a b : PyFloat) : PyFloat := ⟨a.num * b.den, a.den * b.num⟩

/-- Truncation toward zero, as Python's `int(...)` applied to a float. -/
def pfTrunc (q : PyFloat) : ℤ := Int.tdiv q.num q.den

/-- ASCII decimal digit test (as Python's `int`/`float` accept). -/
def charIsDigit (c : Char) : Bool := 48 ≤ c.toNat && c.toNat ≤ 57

/-- Numeric value of a digit character. -/
def charVal (c : Char) : ℤ := (c.toNat : ℤ) - 48

/-- Python `str.strip` whitespace set: space, tab, LF, VT, FF, CR. -/
def pyIsSpace (c : Char) : Bool :=
  c.toNat = 32 || c.toNat = 9 || c.toNat = 10 || c.toNat = 11 || c.toNat = 12 || c.toNat = 13

/-- Python `s.strip()`. -/
def pyStrip (l : Line) : Line :=
  ((l.dropWhile pyIsSpace).reverse.dropWhile pyIsSpace).reverse

/-- Python `s.startswith(p)`. -/
def pyStartsWith : Line → Line → Bool
  | _, [] => true
  | [], _ :: _ => false
  | a :: s, b :: p => a == b && pyStartsWith s p

/-- Python `sub in s` (substring containment). -/
def pyIn (sub : Line) : Line → Bool
  | [] => sub.isEmpty
  | c :: rest => pyStartsWith (c :: rest) sub || pyIn sub rest

/-- Python `s.split(sep)` for a one-character separator: split on every
occurrence, keeping empty pieces. -/
def pySplit (c : Char) : Line → List Line
  | [] => [[]]
  | a :: rest =>
    if a = c then [] :: pySplit c rest
    else
      match pySplit c rest with
      | [] => [[a]]
      | h :: t => (a :: h) :: t

/-- Python `s.split(sep, 1)`: split on the first occurrence only. -/
def pySplit1 (c : Char) : Line → List Line
  | [] => [[]]
  | a :: rest =>
    if a = c then [[], rest]
    else
      match pySplit1 c rest with
      | [] => [[a]]
      | h :: t => (a :: h) :: t

/-- Python `s.replace(old, new)` for one-character arguments. -/
def pyReplace (old new : Char) (l : Line) : Line :=
  l.map (fun c => if c = old then new else c)

/-- Value of a digit string. -/
def pyIntDigits (l : List Char) : ℤ :=
  l.foldl (fun a c => 10 * a + charVal c) 0

/-- Python `int(s)`: strip whitespace, optional sign, then decimal digits. -/
def pyInt (s : Line) : Option ℤ :=
  match pyStrip s with
  | [] => none
  | c :: rest =>
    if c = '-' then
      if !rest.isEmpty && rest.all charIsDigit then some (-(pyIntDigits rest)) else none
    else if c = '+' then
      if !rest.isEmpty && rest.all charIsDigit then some (pyIntDigits rest) else none
    else if (c :: rest).all charIsDigit then some (pyIntDigits (c :: rest)) else none

/-- Python `float(s)` restricted to plain decimal literals (optional sign,
digits, optional decimal point) — the shapes these instrument files
contain; exponents and the inf/nan spellings are not modelled. -/
def pyFloat (s : Line) : Option PyFloat :=
  match pyStrip s with
  | [] => none
  | c :: rest =>
    let sgn : ℤ := if c = '-' then -1 else 1
    let u := if c = '-' ∨ c = '+' then rest else c :: rest
    let ip := u.takeWhile charIsDigit
    match u.dropWhile charIsDigit with
    | [] => if ip.isEmpty then none else some ⟨sgn * pyIntDigits ip, 1⟩
    | d :: frac =>
      if d = '.' ∧ frac.all charIsDigit ∧ (ip.isEmpty = false ∨ frac.isEmpty = false) then
        some ⟨sgn * (pyIntDigits ip * ((10 ^ frac.length : ℕ) : ℤ) + pyIntDigits frac),
              ((10 ^ frac.length : ℕ) : ℤ)⟩
      else none

/-- Whitespace tokenization (Python `s.split()` with no argument, which is
also how the body reader cuts data rows): runs of whitespace separate
tokens, empty tokens are dropped. -/
def pyTokensAux : Line → List Char → List Line
  | [], acc => if acc.isEmpty then [] else [acc.reverse]
  | c :: rest, acc =>
    if pyIsSpace c then
      if acc.isEmpty then pyTokensAux rest [] else acc.reverse :: pyTokensAux rest []
    else pyTokensAux rest (c :: acc)

def pyTokens (l : Line) : List Line := pyTokensAux l []

/-- `OrderedDict` assignment `m[k] = v`: update in place if the key exists,
else append at the end. -/
def odSet (m : List (Line × Line)) (k v : Line) : List (Line × Line) :=
  if m.any (fun p => p.1 == k) then
    m.map (fun p => if p.1 = k then (k, v) else p)
  else m ++ [(k, v)]

/-- `OrderedDict` lookup. -/
def odGet : List (Line × Line) → Line → Option Line
  | [], _ => none
  | (k1, v) :: rest, k => if k1 = k then some v else odGet rest k

/-- `os.path.basename` on a POSIX path. -/
def pyBasename (p : Line) : Line := ((pySplit '/' p).getLast?).getD p

/-! ## The EVE source (`eve.py`) -/

/-- A Python `datetime` value as built by the level-0CS row parser
(`datetime(year, month, day, hour, minute)`; seconds are zero). -/
structure PyDatetime where
  year : ℤ
  month : ℤ
  day : ℤ
  hour : ℤ
  minute : ℤ
deriving DecidableEq

def isLeapYear (y : ℤ) : Bool := (y % 4 == 0 && y % 100 != 0) || y % 400 == 0

def daysInMonth (y m : ℤ) : ℤ :=
  if m = 2 then (if isLeapYear y then 29 else 28)
  else if m = 4 ∨ m = 6 ∨ m = 9 ∨ m = 11 then 30
  else 31

/-- The argument validation performed by the `datetime` constructor. -/
def datetimeValid (y m d hh mm : ℤ) : Bool :=
  1 ≤ y && y ≤ 9999 && 1 ≤ m && m ≤ 12 && 1 ≤ d && d ≤ daysInMonth y m &&
    0 ≤ hh && hh ≤ 23 && 0 ≤ mm && mm ≤ 59

/-- One parsed level-0CS data row: the reconstructed timestamp and the
column values (`none` is the NaN no-data marker). -/
structure L0Row where
  time : PyDatetime
  vals : List (Option PyFloat)
deriving DecidableEq

abbrev L0Table := List L0Row

/-- The header block: the leading lines that start with the `;` sentinel
(the `while line.startswith(";")` loop in `_parse_level_0cs`). -/
def headerOf (lines : List Line) : List Line :=
  lines.takeWhile (fun l => pyStartsWith l (";".data))

/-- The remaining lines once the header loop stops; its first element is
the `YYYY DOY MM DD` date line. -/
def afterHeader (lines : List Line) : List Line :=
  lines.dropWhile (fun l => pyStartsWith l (";".data))

/-- The missing-data scan done while reading the header: every header line
is tested for the `; Missing data:` substring, and each match overwrites
`missing_data_val` with `line.split(':')[1].strip()`.  `some v` plays the
role of `is_missing_data = True` with value `v`. -/
def scanMissing (header : List Line) : Option Line :=
  header.foldl
    (fun acc l =>
      if pyIn ("; Missing data:".data) l then some (pyStrip ((pySplit ':' l).getD 1 []))
      else acc)
    none

/-- Processing of one captured header line by the metadata loop of
`_parse_level_0cs`: the two exact marker lines are skipped; lines
containing `Created` or `Source` split on the first `:` only
(`split(':', 1)`, an `IndexError` if there is no `:`); any other line
containing `:` stores `split(':')[0]` (sentinel replaced, stripped) as key
and `split(':')[1]` (stripped) as value. -/
def processHeaderLine (m : List (Line × Line)) (hline : Line) :
    Except PyErr (List (Line × Line)) :=
  if hline = ("; Format:\n".data) ∨ hline = ("; Column descriptions:\n".data) then
    Except.ok m
  else if pyIn ("Created".data) hline || pyIn ("Source".data) hline then
    match pySplit1 ':' hline with
    | k :: v :: _ => Except.ok (odSet m (pyStrip (pyReplace ';' ' ' k)) (pyStrip v))
    | _ => Except.error PyErr.indexError
  else if pyIn (":".data) hline then
    Except.ok (odSet m (pyStrip (pyReplace ';' ' ' ((pySplit ':' hline).headD [])))
      (pyStrip ((pySplit ':' hline).getD 1 [])))
  else Except.ok m

def extractMetaAux : List (Line × Line) → List Line → Except PyErr (List (Line × Line))
  | m, [] => Except.ok m
  | m, h :: t =>
    match processHeaderLine m h with
    | Except.error e => Except.error e
    | Except.ok m1 => extractMetaAux m1 t

/-- The metadata `OrderedDict` built from the captured header lines. -/
def extractMeta (header : List Line) : Except PyErr (List (Line × Line)) :=
  extractMetaAux [] header

/-- `hline.split(":")[0].replace(';', ' ').strip()` — the field-name (and
generic metadata key) reduction applied to a header line. -/
def lineKey (l : Line) : Line :=
  pyStrip (pyReplace ';' ' ' ((pySplit ':' l).headD []))

/-- The field-name loop of `_parse_level_0cs`, in its exact statement
order: a `; Format:` prefix clears the capture flag, a captured line is
appended, then a `; Column descriptions:` prefix sets the flag. -/
def extractFieldsGo : Bool → List Line → List Line
  | _, [] => []
  | started, h :: rest =>
    let s1 := if pyStartsWith h ("; Format:".data) then false else started
    let captured := if s1 then [lineKey h] else []
    let s2 := if pyStartsWith h ("; Column descriptions:".data) then true else s1
    captured ++ extractFieldsGo s2 rest

def extractFields (header : List Line) : List Line := extractFieldsGo false header

/-- `int(parts[i])` with Python's `IndexError`/`ValueError` behavior. -/
def getPartInt (parts : List Line) (i : ℕ) : Except PyErr ℤ :=
  match parts.get? i with
  | none => Except.error PyErr.indexError
  | some p =>
    match pyInt p with
    | none => Except.error PyErr.valueError
    | some n => Except.ok n

/-- The row date parser `lambda x: datetime(year, month, day, int(x[0:2]),
int(x[2:4]))`: a failing `int` or out-of-range field raises `ValueError`. -/
def timeTokenParse (y m d : ℤ) (x : Line) : Except PyErr PyDatetime :=
  match pyInt (x.take 2), pyInt ((x.drop 2).take 2) with
  | some hh, some mm =>
    if datetimeValid y m d hh mm then Except.ok ⟨y, m, d, hh, mm⟩
    else Except.error PyErr.valueError
  | _, _ => Except.error PyErr.valueError

/-- Parse the values of a non-blank decimal token list. -/
def floatList : List Line → Option (List PyFloat)
  | [] => some []
  | t :: ts =>
    match pyFloat t, floatList ts with
    | some q, some qs => some (q :: qs)
    | _, _ => none

/-- One body row handed to the csv reader with `names=fields` and
`index_col=0`: the first whitespace token goes through the date parser,
the remaining tokens are the column values.  A row whose token count does
not match the field list, or with a non-decimal value, fails the row parse
(the reader's error), rather than silently misaligning columns. -/
def parseRowTokens (y m d : ℤ) (n : ℕ) (toks : List Line) : Except PyErr L0Row :=
  match toks with
  | [] => Except.error PyErr.parserError
  | t0 :: vals =>
    match timeTokenParse y m d t0 with
    | Except.error e => Except.error e
    | Except.ok dt =>
      if vals.length = n then
        match floatList vals with
        | some qs => Except.ok ⟨dt, qs.map some⟩
        | none => Except.error PyErr.valueError
      else Except.error PyErr.parserError

def exceptMap (f : α → Except PyErr β) : List α → Except PyErr (List β)
  | [] => Except.ok []
  | a :: as =>
    match f a with
    | Except.error e => Except.error e
    | Except.ok b =>
      match exceptMap f as with
      | Except.error e => Except.error e
      | Except.ok bs => Except.ok (b :: bs)

/-- The whitespace-token lists of the non-blank body lines (the csv reader
skips blank lines). -/
def tokenizeBody (body : List Line) : List (List Line) :=
  (body.filter (fun l => !(pyTokens l).isEmpty)).map pyTokens

/-- The tokenized data rows of a whole level-0CS file: everything after the
header block and the date line. -/
def bodyTokensOf (lines : List Line) : List (List Line) :=
  tokenizeBody ((afterHeader lines).drop 1)

/-- `data[data == float(missing_data_val)] = numpy.nan`: a NaN cell stays
NaN, a value numerically equal to the sentinel becomes NaN. -/
def subCell (q : PyFloat) (c : Option PyFloat) : Option PyFloat :=
  match c with
  | none => none
  | some x => if pfEq x q then none else some x

def subRow (q : PyFloat) (r : L0Row) : L0Row := ⟨r.time, r.vals.map (subCell q)⟩

def substituteMissing (q : PyFloat) (t : L0Table) : L0Table := t.map (subRow q)

/-- The body half of `_parse_level_0cs`: date anchor from the first
post-header line (`int(parts[0])`, `int(parts[2])`, `int(parts[3])` of a
single-space split), then row parsing, then missing-data substitution
(`float(missing_data_val)` is evaluated only at that point). -/
def l0Body (lines : List Line) : Except PyErr L0Table :=
  match afterHeader lines with
  | [] => Except.error PyErr.valueError
  | dateLine :: body =>
    match getPartInt (pySplit ' ' dateLine) 0, getPartInt (pySplit ' ' dateLine) 2,
        getPartInt (pySplit ' ' dateLine) 3 with
    | Except.ok y, Except.ok m, Except.ok d =>
      match exceptMap (parseRowTokens y m d (extractFields (headerOf lines)).length)
          (tokenizeBody body) with
      | Except.error e => Except.error e
      | Except.ok rows =>
        match scanMissing (headerOf lines) with
        | none => Except.ok rows
        | some v =>
          match pyFloat v with
          | some q => Except.ok (substituteMissing q rows)
          | none => Except.error PyErr.valueError
    | Except.error e, _, _ => Except.error e
    | _, Except.error e, _ => Except.error e
    | _, _, Except.error e => Except.error e

/-- The fixed unit dictionary returned by `_parse_level_0cs`. -/
def eveUnits : List (Line × UnitTag) :=
  [("XRS-B proxy".data, UnitTag.dimensionless),
   ("XRS-A proxy".data, UnitTag.dimensionless),
   ("SEM proxy".data, UnitTag.dimensionless),
   ("0.1-7ESPquad".data, UnitTag.wattPerM2),
   ("17.1ESP".data, UnitTag.wattPerM2),
   ("25.7ESP".data, UnitTag.wattPerM2),
   ("30.4ESP".data, UnitTag.wattPerM2),
   ("36.6ESP".data, UnitTag.wattPerM2),
   ("darkESP".data, UnitTag.count),
   ("121.6MEGS-P".data, UnitTag.wattPerM2),
   ("darkMEGS-P".data, UnitTag.count),
   ("q0ESP".data, UnitTag.dimensionless),
   ("q1ESP".data, UnitTag.dimensionless),
   ("q2ESP".data, UnitTag.dimensionless),
   ("q3ESP".data, UnitTag.dimensionless),
   ("CMLat".data, UnitTag.wattPerM2),
   ("CMLon".data, UnitTag.wattPerM2)]

/-- `EVELightCurve._parse_level_0cs`: returns the `(data, meta, units)`
triple, with Python's evaluation order for the raised errors (the metadata
loop runs before the body is read). -/
def eve_parse_level_0cs (lines : List Line) :
    Except PyErr (L0Table × List (Line × Line) × List (Line × UnitTag)) :=
  match extractMeta (headerOf lines) with
  | Except.error e => Except.error e
  | Except.ok meta =>
    match l0Body lines with
    | Except.error e => Except.error e
    | Except.ok rows => Except.ok (rows, meta, eveUnits)

/-- The table built by `read_csv` for the averages sub-format, modelled
from the spec: comma separated cells, a header row whose first cell labels
the index, then one `(index, values)` row per non-blank line (the
timestamp parsing of the index column is kept as text). -/
structure AvgTable where
  cols : List Line
  rows : List (Line × List Line)
deriving DecidableEq

def csvCells (l : Line) : List Line := (pySplit ',' l).map pyStrip

def readCsvAvg : List Line → AvgTable
  | [] => ⟨[], []⟩
  | h :: rest =>
    ⟨(csvCells h).drop 1,
     (rest.filter (fun l => !(pyStrip l).isEmpty)).map
       (fun l =>
         match csvCells l with
         | [] => ([], [])
         | c :: cs => (c, cs))⟩

/-- `EVELightCurve._parse_average_csv`: returns the pair
`("", read_csv(fp, ...))` — an empty string, then the table. -/
def eve_parse_average_csv (lines : List Line) : Line × AvgTable :=
  ([], readCsvAvg lines)

/-- The value returned by `EVELightCurve._parse_file`: either the
level-0CS triple or the averages pair, mirroring the two different tuple
shapes the Python sub-parsers return. -/
inductive EveParsed where
  | pairStrTable (s : Line) (t : AvgTable)
  | triple (tbl : L0Table) (meta : List (Line × Line)) (units : List (Line × UnitTag))
deriving DecidableEq

def isCanonicalTriple : EveParsed → Bool
  | EveParsed.triple _ _ _ => true
  | _ => false

def wrapL0 (r : Except PyErr (L0Table × List (Line × Line) × List (Line × UnitTag))) :
    Except PyErr (Option EveParsed) :=
  match r with
  | Except.error e => Except.error e
  | Except.ok t => Except.ok (some (EveParsed.triple t.1 t.2.1 t.2.2))

/-- `EVELightCurve._parse_file` on the decoded file lines: dispatch on the
first line; a file matching neither prefix falls off the end of the Python
function and returns `None` (`Except.ok none` — no exception is raised). -/
def eve_parse_file (lines : List Line) : Except PyErr (Option EveParsed) :=
  match lines with
  | [] => Except.ok none
  | l1 :: _ =>
    if pyStartsWith l1 ("Date".data) then
      Except.ok (some (EveParsed.pairStrTable (eve_parse_average_csv lines).1
        (eve_parse_average_csv lines).2))
    else if pyStartsWith l1 (";".data) then
      wrapL0 (eve_parse_level_0cs lines)
    else Except.ok none

/-- The class-level state `_parse_file` writes through
`cls._filename = basename(filepath)`. -/
structure EveClassState where
  filenameAttr : Option Line
deriving DecidableEq

/-- `EVELightCurve._parse_file` including its class-attribute assignment:
the returned record depends only on the file lines, but the class state is
overwritten with the basename of the path on every call. -/
def eve_parse_file_full (filepath : Line) (lines : List Line) (st : EveClassState) :
    EveClassState × Except PyErr (Option EveParsed) :=
  (⟨some (pyBasename filepath)⟩, eve_parse_file lines)

/-! ## The NoRH source (`norh.py`) -/

/-- `np.linspace(start, stop, num)` of the numpy generation this code
targets: a non-integral `num` is truncated with `int(num)`, `num <= 0`
yields an empty array, and otherwise the `num` evenly spaced samples from
`start` to `stop` inclusive. -/
def npLinspace (start stop : PyFloat) (num : ℤ) : List PyFloat :=
  if num ≤ 0 then []
  else if num = 1 then [start]
  else
    (List.range num.toNat).map
      (fun i => pfAdd start (pfMul (pfOfInt i) (pfDiv (pfSub stop start) (pfOfInt (num - 1)))))

/-- The synthetic second offsets
`sec_array = np.linspace(0, length-1, length/cadence)` built by
`NoRHLightCurve._parse_file` for `length` samples. -/
def norh_time_offsets (dataLen : ℕ) (cadence : PyFloat) : List PyFloat :=
  npLinspace (pfOfInt 0) (pfOfInt ((dataLen : ℤ) - 1))
    (pfTrunc (pfDiv (pfOfInt (dataLen : ℤ)) cadence))

/-- `NoRHLightCurve._parse_file`.  `data` is the primary HDU's 1-D array,
`header` its card dictionary; `obsStart` stands for the instant
`parse_time(DATE-OBS + 'T' + CRVAL1)` (in seconds, since the external time
parser is not part of this repository) and `cadence` for
`np.float(header['CDELT1'])`.  A zero cadence raises `ZeroDivisionError`
at `length/cadence`; otherwise `sec_array` and the `norh_time` loop run,
and the final
`pandas.DataFrame(data, index=norh_time, columns=('Correlation Coefficient'))`
then raises `TypeError` unconditionally — `('Correlation Coefficient')`
is a parenthesized plain string, not a tuple, and the pandas `Index`
constructor rejects a scalar `columns` argument before any index/data
shape check — so the function never reaches its `return` and never
produces a record.  The result type still records the
`(table, header, units)` triple the `return` statement names. -/
def norh_parse_file (data : List PyFloat) (header : List (Line × Line))
    (obsStart cadence : PyFloat) :
    Except PyErr ((List (PyFloat × PyFloat) × Line) × List (Line × Line) ×
      List (Line × UnitTag)) :=
  if pfEq cadence (pfOfInt 0) then Except.error PyErr.zeroDivisionError
  else
    let secArray := norh_time_offsets data.length cadence
    let norhTime := secArray.map (fun s => pfAdd obsStart s)
    Except.error PyErr.typeError

/-- Modelled from the spec: the generic time-series container stores the
constructor's `header` argument as the record's ordered metadata mapping,
and its `detector` attribute reads the `'detector'` metadata entry (the
"optional short identifier derived from the ... instrument detector").
`GenericTimeSeries` itself is not part of this repository's sources. -/
structure GenericTS where
  meta : List (Line × Line)
  nickname : Line
deriving DecidableEq

def genericInit (header : List (Line × Line)) : GenericTS := ⟨header, []⟩

def tsDetector (ts : GenericTS) : Line := (odGet ts.meta ("detector".data)).getD []

/-- `NoRHLightCurve.__init__`: after the generic initialisation it executes
`self.meta['detector'] = ""` and then `self._nickname = self.detector`. -/
def norhInit (header : List (Line × Line)) : GenericTS :=
  let base := genericInit header
  let withDet : GenericTS := ⟨odSet base.meta ("detector".data) [], base.nickname⟩
  ⟨withDet.meta, tsDetector withDet⟩

/-! ## Inputs and claim-side characterizations used by the theorems -/

/-- Modelled from the claim wording of C9: the header lines lying strictly
between the first of the two marker lines encountered and the next marker
line — "whichever marker opens the region and whichever closes it" —
each reduced by the field-name cleanup. -/
def fieldsBetweenMarkers (header : List Line) : List Line :=
  (((header.dropWhile (fun l =>
      !(pyStartsWith l ("; Format:".data) ||
        pyStartsWith l ("; Column descriptions:".data)))).drop 1).takeWhile (fun l =>
      !(pyStartsWith l ("; Format:".data) ||
        pyStartsWith l ("; Column descriptions:".data)))).map lineKey

/-- Modelled from the claim wording of C4: the text before the first `:`
occurrence. -/
def beforeFirstColon (l : Line) : Line := l.takeWhile (fun a => a != ':')

/-- Modelled from the claim wording of C4: the entire text after the first
`:` occurrence. -/
def afterFirstColon (l : Line) : Line := (l.dropWhile (fun a => a != ':')).drop 1

/-- The text strictly between the first and the second `:` occurrence (up
to the end of the line when there is no second occurrence). -/
def betweenFirstColons (l : Line) : Line :=
  (afterFirstColon l).takeWhile (fun a => a != ':')

def linesC7w : List Line :=
  ["; Column descriptions:\n".data, "; A:\n".data, "; Format:\n".data,
   "2013 015 01 15\n".data, "0007 5\n".data]

def linesC5 : List Line :=
  ["; Missing data: -99\n".data, "; Column descriptions:\n".data, "; fieldA:\n".data,
   "; fieldB:\n".data, "; Format:\n".data, "2013 015 01 15\n".data,
   "0000 -99 3.2\n".data]

def tblC5 : L0Table := [⟨⟨2013, 1, 15, 0, 0⟩, [none, some ⟨32, 10⟩]⟩]

def metaC5 : List (Line × Line) :=
  [(("Missing data".data), ("-99".data)), (("fieldA".data), ([] : Line)),
   (("fieldB".data), ([] : Line))]

/-! ## Helper lemmas -/

lemma pfEq_refl (a : PyFloat) : pfEq a a = true := by
  simp [pfEq]

lemma pyStartsWith_nil (s : Line) : pyStartsWith s [] = true := by
  cases s <;> rfl

lemma pyIn_singleton (c : Char) (l : Line) : pyIn [c] l = true ↔ c ∈ l := by
  induction l with
  | nil => simp [pyIn, List.isEmpty]
  | cons a rest ih =>
    simp only [pyIn, pyStartsWith, pyStartsWith_nil, Bool.and_true, Bool.or_eq_true,
      beq_iff_eq, ih, List.mem_cons]
    constructor
    · rintro (h | h)
      · exact Or.inl h.symm
      · exact Or.inr h
    · rintro (h | h)
      · exact Or.inl h.symm
      · exact Or.inr h

lemma pySplit_ne_nil (c : Char) (l : Line) : pySplit c l ≠ [] := by
  cases l with
  | nil => simp [pySplit]
  | cons a rest =>
    simp only [pySplit]
    split
    · simp
    · split <;> simp

lemma pySplit_headD (c : Char) (l : Line) :
    (pySplit c l).headD [] = l.takeWhile (fun a => a != c) := by
  induction l with
  | nil => simp [pySplit]
  | cons a rest ih =>
    by_cases h : a = c
    · simp [pySplit, h]
    · have hb : (a != c) = true := by simp [h]
      simp only [pySplit, if_neg h, List.takeWhile_cons, hb, if_pos]
      cases hsp : pySplit c rest with
      | nil => exact absurd hsp (pySplit_ne_nil c rest)
      | cons h1 t1 =>
        have : h1 = rest.takeWhile (fun a => a != c) := by
          rw [← ih, hsp]; rfl
        simp [this]

lemma pySplit_getD_one (c : Char) (l : Line) (hmem : c ∈ l) :
    (pySplit c l).getD 1 [] =
      ((l.dropWhile (fun a => a != c)).drop 1).takeWhile (fun a => a != c) := by
  induction l with
  | nil => cases hmem
  | cons a rest ih =>
    by_cases h : a = c
    · subst h
      have hb : (a != a) = false := by simp
      simp only [pySplit, eq_self_iff_true, if_true, List.dropWhile_cons, hb,
        Bool.false_eq_true, if_false, List.drop_succ_cons, List.drop_zero]
      have : ([] :: pySplit a rest).getD 1 [] = (pySplit a rest).headD [] := by
        cases hsp : pySplit a rest with
        | nil => exact absurd hsp (pySplit_ne_nil a rest)
        | cons h1 t1 => rfl
      rw [this, pySplit_headD]
    · have hmem' : c ∈ rest := by
        rcases List.mem_cons.mp hmem with h1 | h1
        · exact absurd h1.symm h
        · exact h1
      have hb : (a != c) = true := by simp [h]
      simp only [pySplit, if_neg h, List.dropWhile_cons, hb, if_pos]
      cases hsp : pySplit c rest with
      | nil => exact absurd hsp (pySplit_ne_nil c rest)
      | cons h1 t1 =>
        have := ih hmem'
        rw [hsp] at this
        simpa using this

lemma pySplit1_of_mem (c : Char) (l : Line) (hmem : c ∈ l) :
    pySplit1 c l =
      [l.takeWhile (fun a => a != c), (l.dropWhile (fun a => a != c)).drop 1] := by
  induction l with
  | nil => cases hmem
  | cons a rest ih =>
    by_cases h : a = c
    · subst h
      have hb : (a != a) = false := by simp
      simp [pySplit1, List.takeWhile_cons, List.dropWhile_cons, hb]
    · have hmem' : c ∈ rest := by
        rcases List.mem_cons.mp hmem with h1 | h1
        · exact absurd h1.symm h
        · exact h1
      have hb : (a != c) = true := by simp [h]
      simp only [pySplit1, if_neg h, List.takeWhile_cons, List.dropWhile_cons, hb, if_pos]
      rw [ih hmem']

lemma digit_not_space {c : Char} (h : charIsDigit c = true) : pyIsSpace c = false := by
  simp only [charIsDigit, Bool.and_eq_true, decide_eq_true_eq] at h
  simp only [pyIsSpace, Bool.or_eq_false_iff, decide_eq_false_iff_not]
  omega

lemma digit_ne_minus {c : Char} (h : charIsDigit c = true) : c ≠ '-' := by
  intro he; subst he; exact absurd h (by decide)

lemma digit_ne_plus {c : Char} (h : charIsDigit c = true) : c ≠ '+' := by
  intro he; subst he; exact absurd h (by decide)

lemma pyStrip_of_digits {l : Line} (h : ∀ c ∈ l, charIsDigit c = true) : pyStrip l = l := by
  have h1 : l.dropWhile pyIsSpace = l := by
    cases l with
    | nil => rfl
    | cons a rest =>
      rw [List.dropWhile_cons]
      simp [digit_not_space (h a (by simp))]
  have h2 : l.reverse.dropWhile pyIsSpace = l.reverse := by
    cases hr : l.reverse with
    | nil => rfl
    | cons a rest =>
      rw [List.dropWhile_cons]
      have ha : a ∈ l := by
        rw [← List.mem_reverse, hr]; simp
      simp [digit_not_space (h a ha)]
  rw [pyStrip, h1, h2, List.reverse_reverse]

lemma pyInt_two_digits (c1 c2 : Char) (h1 : charIsDigit c1 = true)
    (h2 : charIsDigit c2 = true) :
    pyInt [c1, c2] = some (10 * charVal c1 + charVal c2) := by
  have hs : pyStrip [c1, c2] = [c1, c2] := by
    apply pyStrip_of_digits
    intro c hc
    rcases List.mem_cons.mp hc with h | h
    · subst h; exact h1
    · rcases List.mem_singleton.mp h with rfl
      exact h2
  rw [pyInt, hs]
  simp only [if_neg (digit_ne_minus h1), if_neg (digit_ne_plus h1)]
  rw [if_pos]
  · simp only [pyIntDigits, List.foldl_cons, List.foldl_nil, Option.some.injEq]
    ring
  · simp [h1, h2]

lemma exceptMap_ok_get {α β : Type} (f : α → Except PyErr β) :
    ∀ (l : List α) (ys : List β), exceptMap f l = Except.ok ys →
      ∀ (i : ℕ) (x : α), l.get? i = some x →
        ∃ y, ys.get? i = some y ∧ f x = Except.ok y := by
  intro l
  induction l with
  | nil =>
    intro ys _ i x hx
    simp at hx
  | cons a as ih =>
    intro ys h i x hx
    rw [exceptMap] at h
    cases hfa : f a with
    | error e => rw [hfa] at h; cases h
    | ok b =>
      rw [hfa] at h
      cases hm : exceptMap f as with
      | error e => rw [hm] at h; cases h
      | ok bs =>
        rw [hm] at h
        cases h
        cases i with
        | zero =>
          refine ⟨b, by simp, ?_⟩
          rw [List.get?_cons_zero] at hx
          cases hx
          exact hfa
        | succ n =>
          rw [List.get?_cons_succ] at hx
          exact ih bs hm n x hx

lemma floatList_get :
    ∀ (ts : List Line) (qs : List PyFloat), floatList ts = some qs →
      ∀ (j : ℕ) (x : Line), ts.get? j = some x →
        ∃ q, pyFloat x = some q ∧ qs.get? j = some q := by
  intro ts
  induction ts with
  | nil =>
    intro qs _ j x hx
    simp at hx
  | cons t ts' ih =>
    intro qs h j x hx
    rw [floatList] at h
    cases hft : pyFloat t with
    | none => rw [hft] at h; cases h
    | some q =>
      rw [hft] at h
      cases hm : floatList ts' with
      | none => rw [hm] at h; cases h
      | some qs' =>
        rw [hm] at h
        cases h
        cases j with
        | zero =>
          rw [List.get?_cons_zero] at hx
          cases hx
          exact ⟨q, hft, by simp⟩
        | succ n =>
          rw [List.get?_cons_succ] at hx
          exact ih qs' hm n x hx

lemma odGet_update (m : List (Line × Line)) (k v : Line)
    (hany : m.any (fun p => p.1 == k) = true) :
    odGet (m.map (fun p => if p.1 = k then (k, v) else p)) k = some v := by
  induction m with
  | nil => simp at hany
  | cons p rest ih =>
    obtain ⟨k1, v1⟩ := p
    by_cases hk : k1 = k
    · subst hk
      rw [List.map_cons]
      have hhead : (if ((k1, v1) : Line × Line).1 = k1 then (k1, v) else (k1, v1)) = (k1, v) :=
        if_pos rfl
      rw [hhead, odGet, if_pos rfl]
    · have hrest : rest.any (fun p => p.1 == k) = true := by
        simp only [List.any_cons, Bool.or_eq_true, beq_iff_eq] at hany
        rcases hany with h | h
        · exact absurd h hk
        · exact h
      simp only [List.map_cons, if_neg hk]
      rw [odGet, if_neg hk]
      exact ih hrest

lemma odGet_append (m : List (Line × Line)) (k v : Line)
    (hnone : m.any (fun p => p.1 == k) = false) :
    odGet (m ++ [(k, v)]) k = some v := by
  induction m with
  | nil => simp [odGet]
  | cons p rest ih =>
    obtain ⟨k1, v1⟩ := p
    have h1 : ¬ (k1 = k) := by
      intro he
      rw [List.any_cons, he] at hnone
      simp at hnone
    have h2 : rest.any (fun p => p.1 == k) = false := by
      cases hb : rest.any (fun p => p.1 == k) with
      | false => rfl
      | true => rw [List.any_cons, hb] at hnone; simp at hnone
    rw [List.cons_append, odGet, if_neg h1]
    exact ih h2

lemma odGet_odSet (m : List (Line × Line)) (k v : Line) :
    odGet (odSet m k v) k = some v := by
  rw [odSet]
  by_cases h : m.any (fun p => p.1 == k) = true
  · rw [if_pos h]
    exact odGet_update m k v h
  · rw [if_neg h]
    apply odGet_append
    cases hb : m.any (fun p => p.1 == k) with
    | false => rfl
    | true => exact absurd hb h

lemma extractFieldsGo_false_append (pre rest : List Line)
    (h : ∀ l ∈ pre, pyStartsWith l ("; Column descriptions:".data) = false) :
    extractFieldsGo false (pre ++ rest) = extractFieldsGo false rest := by
  induction pre with
  | nil => rfl
  | cons a pre' ih =>
    have ha := h a (by simp)
    rw [List.cons_append, extractFieldsGo]
    simp only [ha, Bool.false_eq_true, if_false, ite_self]
    exact ih (fun l hl => h l (by simp [hl]))

lemma extractFieldsGo_true_append (mid rest : List Line)
    (h : ∀ l ∈ mid, pyStartsWith l ("; Format:".data) = false) :
    extractFieldsGo true (mid ++ rest) =
      mid.map lineKey ++ extractFieldsGo true rest := by
  induction mid with
  | nil => rfl
  | cons a mid' ih
    =>
    have ha := h a (by simp)
    rw [List.cons_append, extractFieldsGo]
    simp only [ha, Bool.false_eq_true, if_false, if_true, ite_self, List.map_cons,
      List.cons_append, List.singleton_append, List.nil_append]
    rw [ih (fun l hl => h l (by simp [hl]))]

/-! ## Claim theorems -/

/-- C1: the claim says a NoRH file with `N` samples and positive cadence
`d` parses to a table with exactly `N` rows whose row `i` is stamped
`T0 + i*d` seconds.  At the failing input — 4 samples, cadence 2.0 — the
code instead builds `np.linspace(0, N-1, int(N/d)) = [0, 3]`: two
offsets, not the claimed four at 0, 2, 4, 6; and the parse then fails in
the `DataFrame` constructor (its malformed string `columns` argument), so
the claimed table is never produced. -/
theorem norh_cadence_rowcount_bug :
    norh_time_offsets 4 ⟨2, 1⟩ = [pfOfInt 0, ⟨3, 1⟩] ∧
      (norh_time_offsets 4 ⟨2, 1⟩).length ≠ 4 ∧
      norh_parse_file [⟨1, 1⟩, ⟨2, 1⟩, ⟨3, 1⟩, ⟨4, 1⟩] [] (pfOfInt 0) ⟨2, 1⟩ =
        Except.error PyErr.typeError := by
  refine ⟨by rfl, by decide, by rfl⟩

/-- C2: a NoRH parse with a zero or negative cadence aborts with an error
and returns no record, and in particular no record with an empty or
unbounded synthetic time axis.  A zero cadence dies on the unguarded
`length/cadence` division (`ZeroDivisionError`); any other cadence
reaches the `DataFrame` constructor, which raises `TypeError` on its
malformed `columns` argument — so the empty offset array a negative
cadence produces internally is never returned as a record.  (A non-finite
cadence is not representable in the exact-fraction model; in Python it
aborts as well, `int(nan)` raising `ValueError` inside `linspace`.) -/
theorem norh_bad_cadence_aborts (data : List PyFloat)
    (header : List (Line × Line)) (obsStart cadence : PyFloat)
    (h : cadence.num * cadence.den ≤ 0) :
    norh_parse_file data header obsStart cadence =
      Except.error (if pfEq cadence (pfOfInt 0) then PyErr.zeroDivisionError
        else PyErr.typeError) ∧
    ∀ res, norh_parse_file data header obsStart cadence ≠ Except.ok res := by
  constructor
  · by_cases hz : pfEq cadence (pfOfInt 0) = true
    · unfold norh_parse_file
      rw [if_pos hz, if_pos hz]
    · unfold norh_parse_file
      rw [if_neg hz, if_neg hz]
  · intro res hres
    unfold norh_parse_file at hres
    by_cases hz : pfEq cadence (pfOfInt 0) = true
    · rw [if_pos hz] at hres
      cases hres
    · rw [if_neg hz] at hres
      cases hres

theorem norh_bad_cadence_aborts_witness :
    norh_parse_file [pfOfInt 1] [] (pfOfInt 0) ⟨-1, 1⟩ =
      Except.error (if pfEq (⟨-1, 1⟩ : PyFloat) (pfOfInt 0) then
        PyErr.zeroDivisionError else PyErr.typeError) :=
  (norh_bad_cadence_aborts [pfOfInt 1] [] (pfOfInt 0) ⟨-1, 1⟩ (by decide)).1

/-- C3 counterexample: the claim says leading content matching neither
dispatch prefix surfaces an "unrecognized format" error to the caller.
On a file whose first line is `XYZ` the Python function falls off the end
and returns `None` — a normal return carrying no record, not an error. -/
theorem eve_unrecognized_format_counterexample :
    eve_parse_file [("XYZ\n".data)] = Except.ok none := by
  rfl

/-- C3 (amended): a first line beginning with `Date` routes to the
averages sub-parser and one beginning with `;` routes to the level-0CS
sub-parser, but any other leading content makes `_parse_file` fall
through and return `None`: no record and no raised error. -/
theorem eve_dispatch_amended (l1 : Line) (rest : List Line) :
    (pyStartsWith l1 ("Date".data) = true →
      eve_parse_file (l1 :: rest) =
        Except.ok (some (EveParsed.pairStrTable (eve_parse_average_csv (l1 :: rest)).1
          (eve_parse_average_csv (l1 :: rest)).2))) ∧
    (pyStartsWith l1 ("Date".data) = false → pyStartsWith l1 (";".data) = true →
      eve_parse_file (l1 :: rest) = wrapL0 (eve_parse_level_0cs (l1 :: rest))) ∧
    (pyStartsWith l1 ("Date".data) = false → pyStartsWith l1 (";".data) = false →
      eve_parse_file (l1 :: rest) = Except.ok none) := by
  refine ⟨?_, ?_, ?_⟩
  · intro h1
    simp [eve_parse_file, h1]
  · intro h1 h2
    simp [eve_parse_file, h1, h2]
  · intro h1 h2
    simp [eve_parse_file, h1, h2]

theorem eve_dispatch_amended_witness :
    eve_parse_file [("XY\n".data)] = Except.ok none :=
  (eve_dispatch_amended ("XY\n".data) []).2.2 (by decide) (by decide)

/-- C6 counterexample: the claim says no parser invocation mutates any
class-level state shared between parses.  A single `_parse_file` call on
path `a.txt` changes the class state: `cls._filename` is assigned the
basename of the path. -/
theorem eve_class_state_mutation_counterexample :
    (eve_parse_file_full ("a.txt".data) [] ⟨none⟩).1 ≠ (⟨none⟩ : EveClassState) := by
  decide

/-- C6 (amended): the returned record is a deterministic pure function of
the file lines alone — two invocations on the same lines agree whatever
the path or prior class state — but each invocation overwrites the
class-level `_filename` attribute with the basename of its path. -/
theorem eve_parse_state_amended (fp1 fp2 : Line) (lines : List Line)
    (st1 st2 : EveClassState) :
    (eve_parse_file_full fp1 lines st1).2 = (eve_parse_file_full fp2 lines st2).2 ∧
      (eve_parse_file_full fp1 lines st1).1 = ⟨some (pyBasename fp1)⟩ := by
  exact ⟨rfl, rfl⟩

/-- C10: constructing a NoRH record overwrites the `detector` metadata
entry with the empty string regardless of what the file header carried,
and the record's nickname (set from `self.detector`) is therefore the
empty string. -/
theorem norh_detector_overwrite (header : List (Line × Line)) :
    odGet (norhInit header).meta ("detector".data) = some [] ∧
      (norhInit header).nickname = [] := by
  have h := odGet_odSet header ("detector".data) []
  refine ⟨h, ?_⟩
  show (odGet (odSet header ("detector".data) []) ("detector".data)).getD [] = []
  rw [h]
  rfl


/-- C9 counterexample: the claim says the extracted field names are the
lines strictly between the two marker lines regardless of which marker
opens the region.  In a header where `; Format:` precedes
`; Column descriptions:` the line between the markers (`AAA`) is ignored
and the line after the second marker (`BBB`) is extracted instead. -/
theorem eve_fields_region_counterexample :
    extractFields ["; Format:\n".data, "; AAA: x\n".data,
        "; Column descriptions:\n".data, "; BBB: y\n".data] = [("BBB".data)] ∧
      fieldsBetweenMarkers ["; Format:\n".data, "; AAA: x\n".data,
        "; Column descriptions:\n".data, "; BBB: y\n".data] = [("AAA".data)] ∧
      [("BBB".data)] ≠ [("AAA".data)] := by
  refine ⟨by rfl, by rfl, by decide⟩

/-- C9 (amended): the capture region is opened only by a
`; Column descriptions:` line and closed only by the next `; Format:`
line: for a header `pre ++ [cd] ++ mid ++ [fmt] ++ post` with the opener
`cd` and closer `fmt` in this order (no opener in `pre` or `post`, no
closer inside `mid`), the extracted field names are exactly the `mid`
lines reduced to their text before the first `:`, sentinel-stripped and
trimmed, in encounter order.  When the markers appear in the opposite
order the captured lines are those after the `Column descriptions:`
marker, not those between the two markers. -/
theorem eve_fields_region_amended (pre mid post : List Line) (cd fmt : Line)
    (hcd : pyStartsWith cd ("; Column descriptions:".data) = true)
    (hfmt : pyStartsWith fmt ("; Format:".data) = true)
    (hfmtcd : pyStartsWith fmt ("; Column descriptions:".data) = false)
    (hpre : ∀ l ∈ pre, pyStartsWith l ("; Column descriptions:".data) = false)
    (hmid : ∀ l ∈ mid, pyStartsWith l ("; Format:".data) = false)
    (hpost : ∀ l ∈ post, pyStartsWith l ("; Column descriptions:".data) = false) :
    extractFields (pre ++ cd :: (mid ++ fmt :: post)) = mid.map lineKey := by
  rw [extractFields, extractFieldsGo_false_append pre _ hpre, extractFieldsGo]
  simp only [hcd, if_true, ite_self, Bool.false_eq_true, if_false, List.nil_append]
  rw [extractFieldsGo_true_append mid _ hmid, extractFieldsGo]
  simp only [hfmt, hfmtcd, if_true, if_false, Bool.false_eq_true, ite_self,
    List.nil_append]
  have hpost2 : extractFieldsGo false post = [] := by
    have h := extractFieldsGo_false_append post [] hpost
    rw [List.append_nil] at h
    rw [h]
    rfl
  rw [hpost2, List.append_nil]

theorem eve_fields_region_amended_witness :
    extractFields ([] ++ ("; Column descriptions:\n".data) ::
        ([("; A:\n".data)] ++ ("; Format:\n".data) :: [])) =
      [("; A:\n".data)].map lineKey :=
  eve_fields_region_amended [] [("; A:\n".data)] [] ("; Column descriptions:\n".data)
    ("; Format:\n".data) (by decide) (by decide) (by decide) (by decide) (by decide)
    (by decide)


/-- C4 counterexample: the claim says a captured non-marker, non-special
line stores the entire text after the first `:` as its value.  For the
line `; Time: 12:30:00` (no `Created`/`Source` substring) the stored
value is `12` — `split(':')[1]` truncates at the second `:` — not the
claimed `12:30:00`. -/
theorem eve_meta_value_truncation_counterexample :
    extractMeta [("; Time: 12:30:00\n".data)] =
        Except.ok [(("Time".data), ("12".data))] ∧
      pyStrip (afterFirstColon ("; Time: 12:30:00\n".data)) = ("12:30:00".data) ∧
      ("12".data : Line) ≠ ("12:30:00".data) := by
  refine ⟨by rfl, by rfl, by decide⟩

/-- C4 (amended): for a captured header line that contains `:` and is not
one of the two structural marker lines, the stored key is the text before
the first `:` (sentinel-stripped and trimmed) and the stored value is —
for lines containing `Created` or `Source` — the entire text after the
first `:`, but for every other line only the text strictly between the
first and second `:` occurrences (trimmed): a value containing further
`:` characters is truncated at its second `:`. -/
theorem eve_meta_value_amended (hline : Line) (m : List (Line × Line))
    (hm1 : hline ≠ ("; Format:\n".data))
    (hm2 : hline ≠ ("; Column descriptions:\n".data))
    (hc : pyIn (":".data) hline = true) :
    (pyIn ("Created".data) hline = true ∨ pyIn ("Source".data) hline = true →
      processHeaderLine m hline =
        Except.ok (odSet m (pyStrip (pyReplace ';' ' ' (beforeFirstColon hline)))
          (pyStrip (afterFirstColon hline)))) ∧
    (pyIn ("Created".data) hline = false → pyIn ("Source".data) hline = false →
      processHeaderLine m hline =
        Except.ok (odSet m (pyStrip (pyReplace ';' ' ' (beforeFirstColon hline)))
          (pyStrip (betweenFirstColons hline)))) := by
  have hmem : ':' ∈ hline := (pyIn_singleton ':' hline).mp hc
  constructor
  · intro hcs
    rw [processHeaderLine, if_neg (fun h => h.elim hm1 hm2),
      if_pos (show (pyIn ("Created".data) hline || pyIn ("Source".data) hline) = true by
        rcases hcs with h | h <;> simp [h]),
      pySplit1_of_mem ':' hline hmem]
    rfl
  · intro hcr hsr
    rw [processHeaderLine, if_neg (fun h => h.elim hm1 hm2),
      if_neg (show ¬(pyIn ("Created".data) hline || pyIn ("Source".data) hline) = true by
        simp [hcr, hsr]),
      if_pos hc, pySplit_headD, pySplit_getD_one ':' hline hmem]
    rfl

theorem eve_meta_value_amended_witness :
    processHeaderLine [] ("; T: 1:2\n".data) =
      Except.ok (odSet []
        (pyStrip (pyReplace ';' ' ' (beforeFirstColon ("; T: 1:2\n".data))))
        (pyStrip (betweenFirstColons ("; T: 1:2\n".data)))) :=
  (eve_meta_value_amended ("; T: 1:2\n".data) [] (by decide) (by decide) (by decide)).2
    (by decide) (by decide)

/-- C8 counterexample: the claim says a time token whose first four
characters are not two 2-digit numeric groups causes a parse error for
that row.  The token `+130` is no such pair of 2-digit groups, yet the
whole file parses successfully: `int('+1') = 1` and `int('30') = 30`, so
the row is stamped 01:30 instead of raising. -/
theorem eve_time_token_lenient_counterexample :
    eve_parse_level_0cs ["; Column descriptions:\n".data, "; fieldA:\n".data,
        "; Format:\n".data, "2013 015 01 15\n".data, "+130 1.0\n".data] =
      Except.ok ([⟨⟨2013, 1, 15, 1, 30⟩, [some ⟨10, 10⟩]⟩],
        [(("fieldA".data), ([] : Line))], eveUnits) := by
  rfl

/-- C8 (amended): with a date anchor `(y, m, d)`, a 4-digit `HHMM` token
whose digits give an in-range `datetime` yields the timestamp
`y-m-d HH:MM:00` (in particular anchor 2013-01-15 with token `0130` gives
2013-01-15T01:30:00); and a row whose time token has a slice `[0:2]` or
`[2:4]` that Python's `int` cannot parse is a row parse error, not a
silent skip.  Tokens whose slices do parse as in-range integers succeed
even when they are not two 2-digit groups (see the counterexample). -/
theorem eve_time_token_amended (y m d : ℤ) :
    (∀ c1 c2 c3 c4 : Char, charIsDigit c1 = true → charIsDigit c2 = true →
      charIsDigit c3 = true → charIsDigit c4 = true →
      datetimeValid y m d (10 * charVal c1 + charVal c2)
        (10 * charVal c3 + charVal c4) = true →
      timeTokenParse y m d [c1, c2, c3, c4] =
        Except.ok ⟨y, m, d, 10 * charVal c1 + charVal c2,
          10 * charVal c3 + charVal c4⟩) ∧
    (∀ (t : Line) (vs : List Line) (n : ℕ),
      pyInt (t.take 2) = none ∨ pyInt ((t.drop 2).take 2) = none →
      parseRowTokens y m d n (t :: vs) = Except.error PyErr.valueError) := by
  constructor
  · intro c1 c2 c3 c4 h1 h2 h3 h4 hv
    have ht : ([c1, c2, c3, c4] : Line).take 2 = [c1, c2] := rfl
    have hd : (([c1, c2, c3, c4] : Line).drop 2).take 2 = [c3, c4] := rfl
    unfold timeTokenParse
    rw [ht, hd, pyInt_two_digits c1 c2 h1 h2, pyInt_two_digits c3 c4 h3 h4]
    simp [hv]
  · intro t vs n h
    have htp : timeTokenParse y m d t = Except.error PyErr.valueError := by
      unfold timeTokenParse
      rcases h with h | h
      · rw [h]
      · rw [h]
        cases pyInt (t.take 2) <;> rfl
    simp only [parseRowTokens, htp]

theorem eve_time_token_amended_witness :
    timeTokenParse 2013 1 15 ("0130".data) = Except.ok ⟨2013, 1, 15, 1, 30⟩ := by
  have h := (eve_time_token_amended 2013 1 15).1 '0' '1' '3' '0'
    (by decide) (by decide) (by decide) (by decide) (by decide)
  exact h

/-- C7 counterexample: the claim says every parser returns the canonical
`(table, meta, units)` record shape.  On an averages file the EVE parser
returns the differently shaped pair `("", table)` — an empty string first
and the table second, with no units mapping at all. -/
theorem eve_averages_shape_counterexample :
    eve_parse_file ["Date, a\n".data, "2020, 1\n".data] =
        Except.ok (some (EveParsed.pairStrTable []
          ⟨[("a".data)], [(("2020".data), [("1".data)])]⟩)) ∧
      isCanonicalTriple (EveParsed.pairStrTable []
        ⟨[("a".data)], [(("2020".data), [("1".data)])]⟩) = false := by
  exact ⟨by rfl, by rfl⟩

/-- C7 (amended): the parsers that return at all do not share one
canonical shape.  The level-0CS parser does return the canonical
`(table, metadata, units)` triple, with the fixed EVE unit dictionary;
the averages sub-parser instead returns the pair `("", table)` — an
empty string, then the table, with metadata and units absent; and the
NoRH parser never returns a record at all, its `DataFrame` construction
raising on every call. -/
theorem eve_return_shape_amended (lines : List Line) (data : List PyFloat)
    (header : List (Line × Line)) (obsStart cadence : PyFloat) :
    (eve_parse_average_csv lines).1 = ([] : Line) ∧
    (∀ r, eve_parse_level_0cs lines = Except.ok r → r.2.2 = eveUnits) ∧
    (∀ res, norh_parse_file data header obsStart cadence ≠ Except.ok res) := by
  refine ⟨rfl, ?_, ?_⟩
  · intro r hr
    unfold eve_parse_level_0cs at hr
    cases hm : extractMeta (headerOf lines) with
    | error e => rw [hm] at hr; cases hr
    | ok meta =>
      rw [hm] at hr
      cases hb : l0Body lines with
      | error e => rw [hb] at hr; cases hr
      | ok rows =>
        rw [hb] at hr
        cases hr
        rfl
  · intro res hres
    unfold norh_parse_file at hres
    by_cases hz : pfEq cadence (pfOfInt 0) = true
    · rw [if_pos hz] at hres
      cases hres
    · rw [if_neg hz] at hres
      cases hres


theorem eve_return_shape_amended_witness :
    (([⟨⟨2013, 1, 15, 0, 7⟩, [some ⟨5, 1⟩]⟩] : L0Table),
        ([(("A".data), ([] : Line))] : List (Line × Line)), eveUnits).2.2 = eveUnits := by
  have h := (eve_return_shape_amended linesC7w [] [] (pfOfInt 0) (pfOfInt 1)).2.1
  exact h (([⟨⟨2013, 1, 15, 0, 7⟩, [some ⟨5, 1⟩]⟩], [(("A".data), [])], eveUnits)) (by rfl)


lemma parseRowTokens_cons (y m d : ℤ) (n : ℕ) (t0 : Line) (vals : List Line) :
    parseRowTokens y m d n (t0 :: vals) =
      match timeTokenParse y m d t0 with
      | Except.error e => Except.error e
      | Except.ok dt =>
        if vals.length = n then
          match floatList vals with
          | some qs => Except.ok ⟨dt, qs.map some⟩
          | none => Except.error PyErr.valueError
        else Except.error PyErr.parserError := rfl

lemma subCell_some (q x : PyFloat) :
    subCell q (some x) = if pfEq x q then none else some x := rfl

/-- C5: for a level-0CS file whose header declares a missing-data sentinel
`v`, every body cell whose token equals `v` is NaN (`none`) in the parsed
table — whatever its row and column, first and last rows included — and
no cell numerically equal to the sentinel survives anywhere in the
completed record. -/
theorem eve_missing_data_substitution (lines : List Line) (tbl : L0Table)
    (meta : List (Line × Line)) (units : List (Line × UnitTag)) (v : Line)
    (hmd : scanMissing (headerOf lines) = some v)
    (hp : eve_parse_level_0cs lines = Except.ok (tbl, meta, units)) :
    (∀ i j toks, (bodyTokensOf lines).get? i = some toks →
      toks.get? (j + 1) = some v →
      Option.bind (tbl.get? i) (fun r => r.vals.get? j) = some none) ∧
    (∀ q, pyFloat v = some q → ∀ row ∈ tbl, ∀ c ∈ row.vals, ∀ x, c = some x →
      pfEq x q = false) := by
  unfold eve_parse_level_0cs at hp
  cases hm : extractMeta (headerOf lines) with
  | error e => rw [hm] at hp; cases hp
  | ok meta0 =>
    rw [hm] at hp
    cases hbody : l0Body lines with
    | error e => rw [hbody] at hp; cases hp
    | ok rows =>
      rw [hbody] at hp
      injection hp with hp1
      have htbl : tbl = rows := (congrArg Prod.fst hp1).symm
      subst htbl
      unfold l0Body at hbody
      split at hbody
      · cases hbody
      · rename_i dateLine body hah
        split at hbody
        · rename_i y mo dy hy hmo hdy
          split at hbody
          · cases hbody
          · rename_i rows0 hrows
            split at hbody
            · rename_i hsm
              rw [hmd] at hsm
              cases hsm
            · rename_i v2 hsm
              rw [hmd] at hsm
              injection hsm with hsm
              subst hsm
              split at hbody
              · rename_i q0 hq
                injection hbody with hbody
                subst hbody
                constructor
                · intro i j toks htoks htokv
                  have hbt : bodyTokensOf lines = tokenizeBody body := by
                    rw [bodyTokensOf, hah]
                    rfl
                  rw [hbt] at htoks
                  obtain ⟨r0, hr0get, hr0⟩ := exceptMap_ok_get _ (tokenizeBody body)
                    rows0 hrows i toks htoks
                  cases toks with
                  | nil => simp at htokv
                  | cons t0 vals =>
                    rw [List.get?_cons_succ] at htokv
                    rw [parseRowTokens_cons] at hr0
                    split at hr0
                    · cases hr0
                    · split at hr0
                      · split at hr0
                        · rename_i dt hl qs hfl
                          injection hr0 with hr0
                          obtain ⟨qv, hqv, hqs⟩ := floatList_get vals qs hfl j v htokv
                          rw [hq] at hqv
                          injection hqv with hqv
                          rw [substituteMissing, List.get?_map, hr0get]
                          subst hr0
                          subst hqv
                          simp only [Option.map_some', Option.some_bind]
                          rw [subRow]
                          simp only [List.get?_map, hqs]
                          simp [subCell, pfEq_refl]
                        · cases hr0
                      · cases hr0
                · intro q hq2 row hrow c hc x hcx
                  rw [hq] at hq2
                  injection hq2 with hq2
                  subst hq2
                  rw [substituteMissing] at hrow
                  rcases List.mem_map.mp hrow with ⟨r0, hr0mem, hrr⟩
                  subst hrr
                  rw [subRow] at hc
                  rcases List.mem_map.mp hc with ⟨c0, hc0mem, hcc⟩
                  subst hcc
                  cases c0 with
                  | none => cases hcx
                  | some x0 =>
                    rw [subCell_some] at hcx
                    by_cases he : pfEq x0 q0 = true
                    · rw [if_pos he] at hcx; cases hcx
                    · rw [if_neg he] at hcx
                      injection hcx with hcx
                      subst hcx
                      exact Bool.eq_false_iff.mpr he
              · cases hbody
        · cases hbody
        · cases hbody
        · cases hbody


theorem eve_missing_data_substitution_witness :
    Option.bind (tblC5.get? 0) (fun r => r.vals.get? 0) = some none := by
  have h := eve_missing_data_substitution linesC5 tblC5 metaC5 eveUnits ("-99".data)
    (by rfl) (by rfl)
  exact h.1 0 0 [("0000".data), ("-99".data), ("3.2".data)] (by rfl) (by rfl)
